import Mathlib

/- Verification of the PerfumeBackend image-persistence subsystem.

   The controller (controllers/productController.js), the image middleware
   (validateImageFile, cleanupOrphanedImages, backupImages) and the server
   hooks are embedded shallowly.  JavaScript strings are sequences of
   characters, so references, payloads and file names are modelled as
   List Char; the blob store (the uploads directory together with the rest
   of the application root) is modelled as the list of file paths, relative
   to the application root, currently present on disk.  File-system writes
   are modelled as reliable; deletion failures, which the code catches and
   logs, are modelled by an explicit flag where a claim speaks about them. -/

abbrev Str := List Char

def str (s : String) : Str := s.data

/-- The on-disk state: the set of paths, relative to the application root,
that exist.  A path inside the uploads directory has the form
uploads/name. -/
structure Store where
  files : List Str
deriving DecidableEq, Repr

def existsSync (s : Store) (p : Str) : Bool := decide (p ∈ s.files)

def writeFile (s : Store) (p : Str) : Store := ⟨p :: s.files⟩

def removeFile (s : Store) (p : Str) : Store := ⟨s.files.filter (fun q => q ≠ p)⟩

/-- JavaScript truthiness of an optional string: null, undefined and the
empty string are falsy. -/
def truthy : Option Str → Bool
  | none => false
  | some u => !u.isEmpty

/-- The leading-slash strip used everywhere in the controller:
url.startsWith(slash) then url.slice(1) else url. -/
def stripSlash (u : Str) : Str :=
  if (str "/").isPrefixOf u then u.drop 1 else u

/-- validateImageFile from the controller and the middleware: a falsy
reference reports false; otherwise the leading slash is stripped, the
result is joined under the application root and checked on disk. -/
def validateImageFile (s : Store) (imageUrl : Option Str) : Bool :=
  match imageUrl with
  | none => false
  | some u => if u.isEmpty then false else existsSync s (stripSlash u)

/-- getFullImageUrl from the controller: falsy references map to null,
absolute URLs (http prefix) pass through, store-relative references are
prefixed with scheme and host, anything else passes through. -/
def getFullImageUrl (imageUrl : Option Str) (protocol host : Str) : Option Str :=
  match imageUrl with
  | none => none
  | some u =>
    if u.isEmpty then none
    else if (str "http").isPrefixOf u then some u
    else if (str "/uploads/").isPrefixOf u then
      some (protocol ++ str "://" ++ host ++ u)
    else some u

/-- Characters matched by the dot of the data-URI regular expression:
everything except the four line terminators. -/
def isDotChar (c : Char) : Bool :=
  c != Char.ofNat 10 && c != Char.ofNat 13 && c != Char.ofNat 8232 && c != Char.ofNat 8233

/-- The match against the pattern that anchors data:image/, one or more
ASCII letters, the text ;base64, and a nonempty remainder of
non-line-terminator characters; returns the extension group and the
payload group. -/
def parseDataUri (s : Str) : Option (Str × Str) :=
  if (str "data:image/").isPrefixOf s then
    let rest := s.drop 11
    let ext := rest.takeWhile Char.isAlpha
    let after := rest.drop ext.length
    if !ext.isEmpty && (str ";base64,").isPrefixOf after then
      let payload := after.drop 8
      if !payload.isEmpty && payload.all isDotChar then some (ext, payload)
      else none
    else none
  else none

inductive CreateResult where
  | persistenceFailure
  | invalidImageFormat
  | missingFields
  | missingImage
  | validateFailure
  | created (imageUrl : Str)
deriving DecidableEq, Repr

/-- The request body and multer file of a create request.  The file field
holds the name of a file that the upstream multipart collaborator may or
may not have placed in the uploads directory. -/
structure CreateReq where
  file : Option Str
  title : Option Str
  description : Option Str
  rating : Option Str
  price : Option Str
  discount : Option Str
  imageUrlFromBody : Option Str
deriving DecidableEq, Repr

/-- The tail of createProduct after the image branches: the required-fields
check, the image-presence check, the existence validation, then the save.
Returns the outcome together with the store state at that point. -/
def checksAndSave (s : Store) (req : CreateReq) (imageUrl : Str) :
    CreateResult × Store :=
  if truthy req.title && truthy req.rating && truthy req.price &&
      truthy req.discount then
    if imageUrl.isEmpty then (.missingImage, s)
    else if validateImageFile s (some imageUrl) then (.created imageUrl, s)
    else (.validateFailure, s)
  else (.missingFields, s)

/-- createProduct from the controller.  fname stands for the generated
timestamp-random part of a fresh blob key. -/
def createProduct (s : Store) (req : CreateReq) (fname : Str) :
    CreateResult × Store :=
  match req.file with
  | some f =>
    if existsSync s (str "uploads/" ++ f) then
      checksAndSave s req (str "/uploads/" ++ f)
    else (.persistenceFailure, s)
  | none =>
    match req.imageUrlFromBody with
    | some b =>
      if truthy (some b) && (str "data:image").isPrefixOf b then
        match parseDataUri b with
        | none => (.invalidImageFormat, s)
        | some (ext, _) =>
          let filename := str "base64-" ++ fname ++ str "." ++ ext
          let s2 := writeFile s (str "uploads/" ++ filename)
          if existsSync s2 (str "uploads/" ++ filename) then
            checksAndSave s2 req (str "/uploads/" ++ filename)
          else (.persistenceFailure, s2)
      else checksAndSave s req []
    | none => checksAndSave s req []

inductive UpdateResult where
  | persistenceFailure
  | invalidImageFormat
  | updated (imageUrl : Option Str)
deriving DecidableEq, Repr

/-- The outcome of the image branches of updateProduct: either an early
error return, or the reference the catalog record will be updated with. -/
inductive ImgStep where
  | fail (e : UpdateResult)
  | ok (imageUrl : Option Str)
deriving DecidableEq, Repr

/-- The image branches of updateProduct: a multer file takes precedence and
must have landed in the store; otherwise a data-URI body is decoded and
written under a fresh key; otherwise the reference of the existing record
is kept. -/
def updateImage (s : Store) (old : Option Str) (file : Option Str)
    (body : Option Str) (fname : Str) : ImgStep × Store :=
  match file with
  | some f =>
    if existsSync s (str "uploads/" ++ f) then
      (.ok (some (str "/uploads/" ++ f)), s)
    else (.fail .persistenceFailure, s)
  | none =>
    match body with
    | some b =>
      if truthy (some b) && (str "data:image").isPrefixOf b then
        match parseDataUri b with
        | none => (.fail .invalidImageFormat, s)
        | some (ext, _) =>
          let filename := str "base64-" ++ fname ++ str "." ++ ext
          let s2 := writeFile s (str "uploads/" ++ filename)
          if existsSync s2 (str "uploads/" ++ filename) then
            (.ok (some (str "/uploads/" ++ filename)), s2)
          else (.fail .persistenceFailure, s2)
      else (.ok old, s)
    | none => (.ok old, s)

/-- updateProduct from the controller: the image branches run first, the
catalog record is updated with the resulting reference, and then the old
blob is deleted when its joined path differs from the new one, its
existence check passes, and the unlink call does not fail; an unlink
failure is swallowed.  old is the reference of the record being updated;
deleteFails injects an unlink failure. -/
def updateProduct (s : Store) (old : Option Str) (file : Option Str)
    (body : Option Str) (fname : Str) (deleteFails : Bool) :
    UpdateResult × Store :=
  match updateImage s old file body fname with
  | (.fail e, s1) => (e, s1)
  | (.ok imageUrl, s1) =>
    let oldPath : Option Str :=
      match old with
      | some u => if u.isEmpty then none else some (stripSlash u)
      | none => none
    let s2 :=
      match oldPath with
      | none => s1
      | some op =>
        if imageUrl.map stripSlash ≠ some op then
          if existsSync s1 op then
            if deleteFails then s1 else removeFile s1 op
          else s1
        else s1
    (.updated imageUrl, s2)

/-- A catalog record as the read endpoints see it: its non-image fields are
irrelevant to the claims and collapsed into the title. -/
structure ProductObj where
  title : Str
  imageUrl : Option Str
deriving DecidableEq, Repr

/-- A response object: the record plus the two optional response fields.
A value of none for a field means the key is absent from the JSON
response. -/
structure EnhancedProduct where
  base : ProductObj
  imageExistsField : Option Bool
  fullImageUrlField : Option (Option Str)
deriving DecidableEq, Repr

/-- The per-record enrichment of getAllProducts and getProductById: the two
response fields are attached only when the reference of the record is truthy. -/
def enhanceProduct (s : Store) (protocol host : Str) (p : ProductObj) :
    EnhancedProduct :=
  if truthy p.imageUrl then
    { base := p
      imageExistsField := some (validateImageFile s p.imageUrl)
      fullImageUrlField := some (getFullImageUrl p.imageUrl protocol host) }
  else
    { base := p, imageExistsField := none, fullImageUrlField := none }

/-- The normalization pass of cleanupOrphanedImages over the references of
all catalog records: each reference has its leading slash stripped; a null
or undefined reference raises, which the model signals with none. -/
def normalizeRefs : List (Option Str) → Option (List Str)
  | [] => some []
  | none :: _ => none
  | some u :: rest => (normalizeRefs rest).map (fun us => stripSlash u :: us)

/-- cleanupOrphanedImages from the middleware: files is the listing of the
uploads directory, urls the references of all catalog records.  Every file
whose uploads-relative path is not among the normalized references is
unlinked and counted; a raise during normalization is caught, leaving the
listing unchanged and the count at zero.  Returns the remaining listing
and the number of deleted files. -/
def cleanupOrphanedImages (files : List Str) (urls : List (Option Str)) :
    List Str × Nat :=
  match normalizeRefs urls with
  | none => (files, 0)
  | some used =>
    (files.filter (fun f => decide ((str "uploads/" ++ f) ∈ used)),
     (files.filter (fun f => decide ((str "uploads/" ++ f) ∉ used))).length)

/-- One iteration of the copy loop of backupImages: the file is copied into
the partition only when no file of that name is there already. -/
def backupStep (acc : List Str × Nat) (f : Str) : List Str × Nat :=
  if f ∈ acc.1 then acc else (acc.1 ++ [f], acc.2 + 1)

/-- backupImages from the middleware: uploads is the listing of the uploads
directory, partition the listing of the snapshot directory of the current
day.  Returns the partition listing after the sweep and the number of
copied files. -/
def backupImages (uploads partition : List Str) : List Str × Nat :=
  uploads.foldl backupStep (partition, 0)

theorem existsSync_iff {s : Store} {p : Str} : existsSync s p = true ↔ p ∈ s.files := by
  simp [existsSync]

@[simp]
theorem existsSync_writeFile_self (s : Store) (p : Str) :
    existsSync (writeFile s p) p = true := by
  simp [existsSync, writeFile]

theorem checksAndSave_created {s s2 : Store} {req : CreateReq} {iu u : Str}
    (h : checksAndSave s req iu = (.created u, s2)) :
    s2 = s ∧ validateImageFile s2 (some u) = true := by
  unfold checksAndSave at h
  split at h
  · split at h
    · simp at h
    · split at h
      · rename_i hv
        simp only [Prod.mk.injEq, CreateResult.created.injEq] at h
        obtain ⟨h1, h2⟩ := h
        subst h1
        subst h2
        exact ⟨rfl, hv⟩
      · simp at h
  · simp at h

/-- Claim C1: on the create path, if a catalog record is durably saved with
reference u, then the existence check on u passed against the store state
in force at the save; that state is exactly the store returned with the
response. -/
theorem create_saves_only_validated (s s2 : Store) (req : CreateReq) (fname u : Str)
    (h : createProduct s req fname = (.created u, s2)) :
    validateImageFile s2 (some u) = true := by
  simp only [createProduct] at h
  split at h
  · split at h
    · exact (checksAndSave_created h).2
    · simp at h
  · split at h
    · split at h
      · split at h
        · simp at h
        · rw [if_pos (existsSync_writeFile_self _ _)] at h
          exact (checksAndSave_created h).2
      · exact (checksAndSave_created h).2
    · exact (checksAndSave_created h).2

theorem create_saves_only_validated_witness :
    validateImageFile ⟨[str "uploads/base64-x.png"]⟩
      (some (str "/uploads/base64-x.png")) = true :=
  create_saves_only_validated ⟨[]⟩ ⟨[str "uploads/base64-x.png"]⟩
    ⟨none, some (str "t"), none, some (str "4"), some (str "9"),
     some (str "1"), some (str "data:image/png;base64,AAAA")⟩
    (str "x") (str "/uploads/base64-x.png") (by decide)

/-- Claim C2, counterexample: the existence check does not deem an absolute
URL present; on an empty store it reports false, and on a store holding a
file whose path is the literal URL it reports true, so the blob store is
consulted for absolute URLs too. -/
theorem validate_absolute_url_reports_false :
    validateImageFile ⟨[]⟩ (some (str "http://cdn.example.com/a.jpg")) = false ∧
    validateImageFile ⟨[str "http://cdn.example.com/a.jpg"]⟩
      (some (str "http://cdn.example.com/a.jpg")) = true := by decide

/-- Claim C2, amended: the existence check has no absolute-URL case; every
non-empty reference, absolute URLs included, has its leading slash
stripped and is then checked against the blob store. -/
theorem validate_consults_store_for_all_refs (s : Store) (u : Str) (h : u ≠ []) :
    validateImageFile s (some u) = existsSync s (stripSlash u) := by
  simp [validateImageFile, h]

theorem validate_consults_store_for_all_refs_witness :
    validateImageFile ⟨[str "http://cdn.example.com/a.jpg"]⟩
      (some (str "http://cdn.example.com/a.jpg")) =
    existsSync ⟨[str "http://cdn.example.com/a.jpg"]⟩
      (stripSlash (str "http://cdn.example.com/a.jpg")) :=
  validate_consults_store_for_all_refs ⟨[str "http://cdn.example.com/a.jpg"]⟩
    (str "http://cdn.example.com/a.jpg") (by decide)

theorem truthy_of_dataImage {b : Str} (h : (str "data:image").isPrefixOf b = true) :
    truthy (some b) = true := by
  cases b with
  | nil => exact absurd h (by decide)
  | cons c cs => simp [truthy]

@[simp]
theorem checksAndSave_snd (s : Store) (req : CreateReq) (iu : Str) :
    (checksAndSave s req iu).2 = s := by
  unfold checksAndSave
  split
  · split
    · rfl
    · split
      · rfl
      · rfl
  · rfl

/-- Claim C3, counterexample: an inline string with no data:image prefix at
all is not rejected with the invalid-image-format error; the request falls
through the branch and fails with the missing-image error instead (the
store is indeed left unchanged). -/
theorem malformed_no_prefix_not_invalid_format :
    (createProduct ⟨[]⟩
      ⟨none, some (str "t"), none, some (str "4"), some (str "9"),
       some (str "1"), some (str "base64,AAAA")⟩ (str "x")).1 =
      CreateResult.missingImage ∧
    (createProduct ⟨[]⟩
      ⟨none, some (str "t"), none, some (str "4"), some (str "9"),
       some (str "1"), some (str "base64,AAAA")⟩ (str "x")).1 ≠
      CreateResult.invalidImageFormat ∧
    (createProduct ⟨[]⟩
      ⟨none, some (str "t"), none, some (str "4"), some (str "9"),
       some (str "1"), some (str "base64,AAAA")⟩ (str "x")).2 = ⟨[]⟩ := by decide

/-- Claim C3, amended: an inline string that starts with data:image but does
not match the full data-URI shape fails with the invalid-image-format
error and writes no blob; an inline string that does not start with
data:image is not treated as an inline payload at all, so it also writes
no blob, but the eventual failure is not the invalid-image-format
error. -/
theorem malformed_inline_payload_behavior (s : Store) (req : CreateReq) (fname b : Str)
    (hf : req.file = none) (hb : req.imageUrlFromBody = some b) :
    ((str "data:image").isPrefixOf b = true → parseDataUri b = none →
       createProduct s req fname = (.invalidImageFormat, s)) ∧
    ((str "data:image").isPrefixOf b = false →
       (createProduct s req fname).1 ≠ .invalidImageFormat ∧
       (createProduct s req fname).2 = s) := by
  constructor
  · intro hpre hparse
    simp [createProduct, hf, hb, truthy_of_dataImage hpre, hpre, hparse]
  · intro hpre
    simp only [createProduct, hf, hb, hpre, Bool.and_false, if_false, Bool.false_eq_true,
      ite_false]
    refine ⟨?_, checksAndSave_snd s req []⟩
    unfold checksAndSave
    split
    · simp
    · simp

theorem malformed_inline_payload_behavior_witness :
    createProduct ⟨[]⟩
      ⟨none, some (str "t"), none, some (str "4"), some (str "9"),
       some (str "1"), some (str "data:image/png")⟩ (str "x") =
      (.invalidImageFormat, ⟨[]⟩) :=
  (malformed_inline_payload_behavior ⟨[]⟩
    ⟨none, some (str "t"), none, some (str "4"), some (str "9"),
     some (str "1"), some (str "data:image/png")⟩ (str "x") (str "data:image/png")
    rfl rfl).1 (by decide) (by decide)

/-- Claim C7, counterexample: a create request with no file and an invalid
inline string that does start with data:image fails with the
invalid-image-format error, not the missing-image error. -/
theorem invalid_inline_not_missing_image :
    (createProduct ⟨[]⟩
      ⟨none, some (str "t"), none, some (str "4"), some (str "9"),
       some (str "1"), some (str "data:image-bad")⟩ (str "x")).1 =
      CreateResult.invalidImageFormat ∧
    (createProduct ⟨[]⟩
      ⟨none, some (str "t"), none, some (str "4"), some (str "9"),
       some (str "1"), some (str "data:image-bad")⟩ (str "x")).1 ≠
      CreateResult.missingImage := by decide

/-- Claim C7, amended: a create request whose required fields are all
present, with no file and no inline string starting with data:image, fails
with the missing-image error, creates no catalog record, and leaves the
store unchanged. -/
theorem no_image_input_yields_missing_image (s : Store) (req : CreateReq) (fname : Str)
    (hf : req.file = none)
    (hb : ∀ b, req.imageUrlFromBody = some b → (str "data:image").isPrefixOf b = false)
    (ht : truthy req.title = true) (hr : truthy req.rating = true)
    (hp : truthy req.price = true) (hd : truthy req.discount = true) :
    createProduct s req fname = (.missingImage, s) := by
  simp only [createProduct, hf]
  cases hbo : req.imageUrlFromBody with
  | none => simp [checksAndSave, ht, hr, hp, hd]
  | some b => simp [hb b hbo, checksAndSave, ht, hr, hp, hd]

theorem no_image_input_yields_missing_image_witness :
    createProduct ⟨[]⟩
      ⟨none, some (str "t"), none, some (str "4"), some (str "9"),
       some (str "1"), none⟩ (str "x") = (.missingImage, ⟨[]⟩) :=
  no_image_input_yields_missing_image ⟨[]⟩
    ⟨none, some (str "t"), none, some (str "4"), some (str "9"),
     some (str "1"), none⟩ (str "x") rfl (fun b h => nomatch h)
    (by decide) (by decide) (by decide) (by decide)

/-- Claim C10: with a valid inline payload and a missing required field, the
decoded blob is written to the store before the required-fields check
runs, so the request fails with the missing-fields error, no record is
created, and the blob is nevertheless present in the resulting store. -/
theorem blob_written_before_required_fields_check (s : Store) (req : CreateReq)
    (fname b ext pay : Str)
    (hf : req.file = none) (hb : req.imageUrlFromBody = some b)
    (hpre : (str "data:image").isPrefixOf b = true)
    (hparse : parseDataUri b = some (ext, pay))
    (hmiss : (truthy req.title && truthy req.rating && truthy req.price &&
              truthy req.discount) = false) :
    createProduct s req fname =
      (.missingFields,
       writeFile s (str "uploads/" ++ (str "base64-" ++ fname ++ str "." ++ ext))) ∧
    existsSync (createProduct s req fname).2
      (str "uploads/" ++ (str "base64-" ++ fname ++ str "." ++ ext)) = true := by
  have h1 : createProduct s req fname =
      (.missingFields,
       writeFile s (str "uploads/" ++ (str "base64-" ++ fname ++ str "." ++ ext))) := by
    simp only [createProduct, hf, hb, truthy_of_dataImage hpre, hpre, Bool.and_self,
      if_true, hparse]
    rw [if_pos (existsSync_writeFile_self _ _)]
    simp [checksAndSave, hmiss]
  exact ⟨h1, by rw [h1]; exact existsSync_writeFile_self _ _⟩

theorem blob_written_before_required_fields_check_witness :
    createProduct ⟨[]⟩
      ⟨none, none, none, some (str "4"), some (str "9"), some (str "1"),
       some (str "data:image/png;base64,AAAA")⟩ (str "x") =
      (.missingFields,
       writeFile ⟨[]⟩ (str "uploads/" ++ (str "base64-" ++ str "x" ++ str "." ++ str "png"))) ∧
    existsSync (createProduct ⟨[]⟩
      ⟨none, none, none, some (str "4"), some (str "9"), some (str "1"),
       some (str "data:image/png;base64,AAAA")⟩ (str "x")).2
      (str "uploads/" ++ (str "base64-" ++ str "x" ++ str "." ++ str "png")) = true :=
  blob_written_before_required_fields_check ⟨[]⟩
    ⟨none, none, none, some (str "4"), some (str "9"), some (str "1"),
     some (str "data:image/png;base64,AAAA")⟩ (str "x")
    (str "data:image/png;base64,AAAA") (str "png") (str "AAAA")
    rfl rfl (by decide) (by decide) (by decide)

theorem backupStep_fst_mono {acc : List Str × Nat} {f x : Str} (h : x ∈ acc.1) :
    x ∈ (backupStep acc f).1 := by
  unfold backupStep
  split
  · exact h
  · simp [h]

theorem backupStep_self_mem (acc : List Str × Nat) (f : Str) :
    f ∈ (backupStep acc f).1 := by
  unfold backupStep
  split
  · assumption
  · simp

theorem backup_foldl_mono (u : List Str) (acc : List Str × Nat) (x : Str)
    (h : x ∈ acc.1) : x ∈ (u.foldl backupStep acc).1 := by
  induction u generalizing acc with
  | nil => exact h
  | cons a as ih => exact ih _ (backupStep_fst_mono h)

theorem backup_foldl_mem (u : List Str) (acc : List Str × Nat) (f : Str)
    (h : f ∈ u) : f ∈ (u.foldl backupStep acc).1 := by
  induction u generalizing acc with
  | nil => cases h
  | cons a as ih =>
    rcases List.mem_cons.mp h with ha | ha
    · subst ha
      exact backup_foldl_mono as _ f (backupStep_self_mem acc f)
    · exact ih _ ha

theorem backup_foldl_noop (u p : List Str) (n : Nat) (h : ∀ f ∈ u, f ∈ p) :
    u.foldl backupStep (p, n) = (p, n) := by
  induction u with
  | nil => rfl
  | cons a as ih =>
    have ha : a ∈ p := h a (List.mem_cons_self a as)
    have hstep : backupStep (p, n) a = (p, n) := by
      unfold backupStep
      simp [ha]
    simp only [List.foldl_cons, hstep]
    exact ih (fun f hf => h f (List.mem_cons_of_mem a hf))

/-- Claim C4: the backup sweep never re-copies a file whose name is already
in the partition of the current day, so a sweep over a partition that already
holds every current file copies zero files, and in particular running the
sweep a second time on the same day with an unchanged store copies zero
files and leaves the partition as it was. -/
theorem backup_idempotent_per_day (u p : List Str) :
    ((∀ f ∈ u, f ∈ p) → backupImages u p = (p, 0)) ∧
    backupImages u (backupImages u p).1 = ((backupImages u p).1, 0) := by
  constructor
  · intro h
    exact backup_foldl_noop u p 0 h
  · exact backup_foldl_noop u _ 0 (fun f hf => backup_foldl_mem u (p, 0) f hf)

theorem backup_idempotent_per_day_witness :
    backupImages [str "a.png"] [str "a.png"] = ([str "a.png"], 0) :=
  (backup_idempotent_per_day [str "a.png"] [str "a.png"]).1 (fun _ hf => hf)

/-- Claim C6: when every catalog reference is non-null, the orphan sweep
keeps exactly the store keys some normalized live reference points at,
deletes exactly the complement, reports the number of deleted files, and
is idempotent: re-running it on the swept listing deletes zero files. -/
theorem cleanup_exact_and_idempotent (files : List Str) (urls : List (Option Str))
    (used : List Str) (h : normalizeRefs urls = some used) :
    (∀ f, f ∈ (cleanupOrphanedImages files urls).1 ↔
       f ∈ files ∧ (str "uploads/" ++ f) ∈ used) ∧
    (cleanupOrphanedImages files urls).2 =
      (files.filter (fun f => decide ((str "uploads/" ++ f) ∉ used))).length ∧
    cleanupOrphanedImages (cleanupOrphanedImages files urls).1 urls =
      ((cleanupOrphanedImages files urls).1, 0) := by
  have hc : cleanupOrphanedImages files urls =
      (files.filter (fun f => decide ((str "uploads/" ++ f) ∈ used)),
       (files.filter (fun f => decide ((str "uploads/" ++ f) ∉ used))).length) := by
    simp [cleanupOrphanedImages, h]
  refine ⟨?_, ?_, ?_⟩
  · intro f
    rw [hc]
    simp [List.mem_filter]
  · rw [hc]
  · rw [hc]
    simp only [cleanupOrphanedImages, h]
    rw [Prod.ext_iff]
    constructor
    · rw [List.filter_eq_self]
      intro a ha
      exact (List.mem_filter.mp ha).2
    · rw [List.length_eq_zero, List.filter_eq_nil_iff]
      intro a ha
      have := (List.mem_filter.mp ha).2
      simp at this ⊢
      exact this

theorem cleanup_exact_and_idempotent_witness :
    (∀ f, f ∈ (cleanupOrphanedImages [str "a.png", str "b.png"]
        [some (str "/uploads/a.png")]).1 ↔
       f ∈ [str "a.png", str "b.png"] ∧
         (str "uploads/" ++ f) ∈ [str "uploads/a.png"]) ∧
    (cleanupOrphanedImages [str "a.png", str "b.png"]
        [some (str "/uploads/a.png")]).2 =
      ([str "a.png", str "b.png"].filter
        (fun f => decide ((str "uploads/" ++ f) ∉ [str "uploads/a.png"]))).length ∧
    cleanupOrphanedImages (cleanupOrphanedImages [str "a.png", str "b.png"]
        [some (str "/uploads/a.png")]).1 [some (str "/uploads/a.png")] =
      ((cleanupOrphanedImages [str "a.png", str "b.png"]
        [some (str "/uploads/a.png")]).1, 0) :=
  cleanup_exact_and_idempotent [str "a.png", str "b.png"]
    [some (str "/uploads/a.png")] [str "uploads/a.png"] (by decide)

theorem normalizeRefs_none {urls : List (Option Str)} (h : none ∈ urls) :
    normalizeRefs urls = none := by
  induction urls with
  | nil => cases h
  | cons a as ih =>
    cases a with
    | none => rfl
    | some u =>
      rcases List.mem_cons.mp h with ha | ha
      · cases ha
      · simp [normalizeRefs, ih ha]

/-- Claim C9: if any catalog record carries a null or undefined image
reference, the normalization pass of the orphan sweep raises, the error is
caught, and the sweep deletes zero files and leaves the store listing
unchanged, whatever orphan files it holds. -/
theorem cleanup_aborts_on_null_reference (files : List Str) (urls : List (Option Str))
    (h : none ∈ urls) :
    cleanupOrphanedImages files urls = (files, 0) := by
  simp [cleanupOrphanedImages, normalizeRefs_none h]

theorem cleanup_aborts_on_null_reference_witness :
    cleanupOrphanedImages [str "orphan.png"] [none, some (str "/uploads/a.png")] =
      ([str "orphan.png"], 0) :=
  cleanup_aborts_on_null_reference [str "orphan.png"]
    [none, some (str "/uploads/a.png")] (by decide)

theorem str_slash : str "/" = ['/'] := rfl

theorem stripSlash_slash_cons (l : Str) : stripSlash ('/' :: l) = l := by
  unfold stripSlash
  rw [str_slash]
  simp [List.isPrefixOf]

theorem stripSlash_uploads (f : Str) :
    stripSlash (str "/uploads/" ++ f) = str "uploads/" ++ f := by
  have h : str "/uploads/" ++ f = '/' :: (str "uploads/" ++ f) := rfl
  rw [h, stripSlash_slash_cons]

@[simp]
theorem existsSync_removeFile_self (s : Store) (p : Str) :
    existsSync (removeFile s p) p = false := by
  simp [existsSync, removeFile, List.mem_filter]

theorem existsSync_removeFile_of_ne {q p : Str} (h : q ≠ p) (s : Store) :
    existsSync (removeFile s p) q = existsSync s q := by
  simp [existsSync, removeFile, List.mem_filter, h]

theorem updateImage_ok_new_present {s s1 : Store} {old file body : Option Str}
    {fname nu : Str}
    (hstep : updateImage s old file body fname = (.ok (some nu), s1))
    (hsup : file ≠ none ∨
      ∃ b, body = some b ∧ (str "data:image").isPrefixOf b = true) :
    existsSync s1 (stripSlash nu) = true := by
  cases hf : file with
  | some f =>
    rw [hf] at hstep
    simp only [updateImage] at hstep
    split at hstep
    · rename_i hex
      simp only [Prod.mk.injEq, ImgStep.ok.injEq, Option.some.injEq] at hstep
      obtain ⟨hnu, hs⟩ := hstep
      rw [← hnu, ← hs, stripSlash_uploads]
      exact hex
    · simp at hstep
  | none =>
    rcases hsup with h1 | ⟨b2, hb2, hpre⟩
    · exact absurd hf h1
    · rw [hf, hb2] at hstep
      simp only [updateImage, truthy_of_dataImage hpre, hpre, Bool.and_self,
        if_true] at hstep
      cases hp : parseDataUri b2 with
      | none => rw [hp] at hstep; simp at hstep
      | some pr =>
        obtain ⟨ext, pay⟩ := pr
        rw [hp] at hstep
        simp only at hstep
        rw [if_pos (existsSync_writeFile_self _ _)] at hstep
        simp only [Prod.mk.injEq, ImgStep.ok.injEq, Option.some.injEq] at hstep
        obtain ⟨hnu, hs⟩ := hstep
        rw [← hnu, ← hs, stripSlash_uploads]
        exact existsSync_writeFile_self _ _

/-- Claim C5: on an update that ends with reference nu while the record held
reference u, with the new blob supplied by a file or an inline payload:
when the joined paths differ, the record is updated, the old blob is
absent from the resulting store and the new blob present; when the joined
paths coincide, no deletion happens and the store is exactly the one the
image branches produced; and when the unlink call fails, the failure is
swallowed and the update still reports success. -/
theorem update_old_blob_cleanup (s s1 : Store) (old file body : Option Str)
    (fname u nu : Str) (d : Bool)
    (hold : old = some u) (hne : u ≠ [])
    (hstep : updateImage s old file body fname = (.ok (some nu), s1))
    (hsup : file ≠ none ∨
      ∃ b, body = some b ∧ (str "data:image").isPrefixOf b = true) :
    (stripSlash nu ≠ stripSlash u →
       (updateProduct s old file body fname false).1 = .updated (some nu) ∧
       existsSync (updateProduct s old file body fname false).2 (stripSlash u) =
         false ∧
       existsSync (updateProduct s old file body fname false).2 (stripSlash nu) =
         true) ∧
    (stripSlash nu = stripSlash u →
       updateProduct s old file body fname d = (.updated (some nu), s1)) ∧
    (updateProduct s old file body fname true).1 = .updated (some nu) := by
  subst hold
  have hue : u.isEmpty = false := by
    cases u with
    | nil => exact absurd rfl hne
    | cons c cs => rfl
  have hup : ∀ df, updateProduct s (some u) file body fname df =
      (.updated (some nu),
       if stripSlash nu ≠ stripSlash u then
         (if existsSync s1 (stripSlash u) then
            (if df then s1 else removeFile s1 (stripSlash u))
          else s1)
       else s1) := by
    intro df
    simp only [updateProduct, hstep, hue, Bool.false_eq_true, if_false,
      Option.map_some', Option.some.injEq, ne_eq]
  have hnew : existsSync s1 (stripSlash nu) = true :=
    updateImage_ok_new_present hstep hsup
  refine ⟨?_, ?_, ?_⟩
  · intro hdiff
    rw [hup false]
    refine ⟨rfl, ?_, ?_⟩
    · simp only [if_pos hdiff]
      by_cases hex : existsSync s1 (stripSlash u) = true
      · simp [hex]
      · simp only [Bool.not_eq_true] at hex
        simp [hex]
    · simp only [if_pos hdiff]
      by_cases hex : existsSync s1 (stripSlash u) = true
      · simp [hex, existsSync_removeFile_of_ne hdiff, hnew]
      · simp only [Bool.not_eq_true] at hex
        simp [hex, hnew]
  · intro heq
    rw [hup d]
    simp [heq]
  · simp [hup]

theorem update_old_blob_cleanup_witness :
    (updateProduct ⟨[str "uploads/old.png", str "uploads/new.png"]⟩
        (some (str "/uploads/old.png")) (some (str "new.png")) none (str "x")
        false).1 = UpdateResult.updated (some (str "/uploads/new.png")) ∧
    existsSync (updateProduct ⟨[str "uploads/old.png", str "uploads/new.png"]⟩
        (some (str "/uploads/old.png")) (some (str "new.png")) none (str "x")
        false).2 (stripSlash (str "/uploads/old.png")) = false ∧
    existsSync (updateProduct ⟨[str "uploads/old.png", str "uploads/new.png"]⟩
        (some (str "/uploads/old.png")) (some (str "new.png")) none (str "x")
        false).2 (stripSlash (str "/uploads/new.png")) = true :=
  (update_old_blob_cleanup ⟨[str "uploads/old.png", str "uploads/new.png"]⟩
    ⟨[str "uploads/old.png", str "uploads/new.png"]⟩
    (some (str "/uploads/old.png")) (some (str "new.png")) none (str "x")
    (str "/uploads/old.png") (str "/uploads/new.png") false rfl (by decide)
    (by decide) (Or.inl (by decide))).1 (by decide)

/-- Claim C8, counterexample: a catalog entry without an image reference is
returned by the list and get-by-id enrichment with neither the
image-exists field nor the full-image-URL field attached. -/
theorem enhance_omits_fields_for_bare_entry :
    (enhanceProduct ⟨[]⟩ (str "http") (str "h") ⟨str "t", none⟩).imageExistsField =
      none ∧
    (enhanceProduct ⟨[]⟩ (str "http") (str "h") ⟨str "t", none⟩).fullImageUrlField =
      none := by decide

/-- Claim C8, amended: the list and get-by-id enrichment attaches the
image-exists boolean and the full-image-URL string exactly to the entries
whose image reference is truthy, in which case the attached URL is never
null; an entry with a falsy reference is returned bare, without either
field. -/
theorem enhance_fields_iff_truthy_reference (s : Store) (protocol host : Str)
    (p : ProductObj) :
    (truthy p.imageUrl = true →
       (enhanceProduct s protocol host p).imageExistsField =
         some (validateImageFile s p.imageUrl) ∧
       (enhanceProduct s protocol host p).fullImageUrlField =
         some (getFullImageUrl p.imageUrl protocol host) ∧
       (getFullImageUrl p.imageUrl protocol host).isSome = true) ∧
    (truthy p.imageUrl = false →
       enhanceProduct s protocol host p = ⟨p, none, none⟩) := by
  constructor
  · intro ht
    refine ⟨?_, ?_, ?_⟩
    · simp [enhanceProduct, ht]
    · simp [enhanceProduct, ht]
    · cases hio : p.imageUrl with
      | none => rw [hio] at ht; simp [truthy] at ht
      | some uu =>
        rw [hio] at ht
        have hie : uu.isEmpty = false := by simpa [truthy] using ht
        simp only [getFullImageUrl, hie, Bool.false_eq_true, if_false]
        by_cases h1 : (str "http").isPrefixOf uu = true
        · simp [h1]
        · simp only [Bool.not_eq_true] at h1
          by_cases h2 : (str "/uploads/").isPrefixOf uu = true
          · simp [h1, h2]
          · simp only [Bool.not_eq_true] at h2
            simp [h1, h2]
  · intro ht
    simp [enhanceProduct, ht]

theorem enhance_fields_iff_truthy_reference_witness :
    (enhanceProduct ⟨[str "uploads/a.png"]⟩ (str "http") (str "h")
        ⟨str "t", some (str "/uploads/a.png")⟩).imageExistsField =
      some (validateImageFile ⟨[str "uploads/a.png"]⟩
        (some (str "/uploads/a.png"))) ∧
    (enhanceProduct ⟨[str "uploads/a.png"]⟩ (str "http") (str "h")
        ⟨str "t", some (str "/uploads/a.png")⟩).fullImageUrlField =
      some (getFullImageUrl (some (str "/uploads/a.png")) (str "http") (str "h")) ∧
    (getFullImageUrl (some (str "/uploads/a.png")) (str "http") (str "h")).isSome =
      true :=
  (enhance_fields_iff_truthy_reference ⟨[str "uploads/a.png"]⟩ (str "http")
    (str "h") ⟨str "t", some (str "/uploads/a.png")⟩).1 (by decide)
